import Mathlib

set_option maxRecDepth 16384

/-!
# Verification of the deal-boost-board CSV import and tenancy model

Shallow embedding of the CSV ingestion pipeline, column inference,
phone normalisation, batch persistence and the two privileged edge
functions of the `deal-boost-board` repository, together with proofs of
the specification claims about them.

Source files embedded here:
* `src/components/CSVUpload.tsx` (`parseCSVLine`, `getColumnIndex`,
  `normalizePhone`, the `handleFileUpload` row loop),
* `src/components/ImportCsv.tsx` (`parseCsv`, `normalizePhone`,
  `splitFullName`, the `handleFile` row loop),
* `src/services/customerService.ts` (`insertCustomers`, `upsertCustomers`),
* `supabase/functions/webhook-customer-onboard/index.ts` (the
  customer-onboarding webhook and the invite-sales-rep handler).

JavaScript strings are modelled as Lean `String`/`List Char`; JS array
indices as `Int` where the `-1` sentinel matters; the JS `parseFloat`
builtin is modelled exactly over `ℚ` (finite decimal literals, longest
valid prefix), with every theorem about the scientific-notation branch
confined to values that are exact integers below `2 ^ 53`, where the
IEEE-754 double and its decimal rendering agree with the exact model;
persistence tables are lists of rows and the Supabase calls are
modelled as pure state transformers.
-/

namespace DealBoost

/-! ## JS string primitives -/

/-- Drop leading whitespace characters from a character list. -/
def dropLeadingWs : List Char → List Char
  | [] => []
  | c :: cs => if c.isWhitespace then dropLeadingWs cs else c :: cs

/-- Model of the JS `String.prototype.trim` builtin: strip whitespace from
both ends (JS's whitespace set is approximated by `Char.isWhitespace`). -/
def jsTrim (s : String) : String :=
  String.mk (dropLeadingWs (dropLeadingWs s.data.reverse).reverse)

/-! ## CSVUpload.tsx: parseCSVLine (lines 57-86) -/

/-- Field-splitting loop of `parseCSVLine`: walks the characters of the
line keeping the current field buffer `cur` and the `inQuotes` flag,
exactly as the `for` loop of `CSVUpload.tsx` lines 62-81.  Inside quotes
a doubled `"` emits one literal `"` and skips the second one; a lone `"`
toggles quote mode; a comma outside quotes ends the field (fields are
pushed trimmed, as `current.trim()` in the source). -/
def parseCSVLineAux : List Char → List Char → Bool → List String
  | [], cur, _ => [jsTrim (String.mk cur)]
  | '"' :: '"' :: rest, cur, true => parseCSVLineAux rest (cur ++ ['"']) true
  | '"' :: rest, cur, inQuotes => parseCSVLineAux rest cur (!inQuotes)
  | ',' :: rest, cur, false => jsTrim (String.mk cur) :: parseCSVLineAux rest [] false
  | c :: rest, cur, inQuotes => parseCSVLineAux rest (cur ++ [c]) inQuotes

/-- `parseCSVLine` of `CSVUpload.tsx` (lines 57-86). -/
def parseCSVLine (line : String) : List String :=
  parseCSVLineAux line.data [] false

/-- RFC-4180 quote escaping: every `"` in the field body is doubled.
Used to describe the inputs of the round-trip claim C1. -/
def escChars : List Char → List Char
  | [] => []
  | c :: cs => if c = '"' then '"' :: '"' :: escChars cs else c :: escChars cs

/-- A single double-quote-wrapped CSV field whose body is `s` with every
literal `"` escaped by doubling. -/
def quoteWrap (s : String) : String :=
  "\"" ++ String.mk (escChars s.data) ++ "\""

/-! ## More JS string primitives -/

/-- `listPrefixOf sub l` holds when `sub` is an initial segment of `l`. -/
def listPrefixOf : List Char → List Char → Bool
  | [], _ => true
  | _ :: _, [] => false
  | a :: as, b :: bs => a == b && listPrefixOf as bs

/-- `listContains sub l` holds when `sub` occurs contiguously in `l`. -/
def listContains (sub : List Char) : List Char → Bool
  | [] => listPrefixOf sub []
  | b :: bs => listPrefixOf sub (b :: bs) || listContains sub bs

/-- Model of JS `s.includes(sub)`: substring containment. -/
def jsIncludes (s sub : String) : Bool :=
  listContains sub.data s.data

/-- Model of JS `String.prototype.toLowerCase` (ASCII range, matching the
header/variation strings this repository feeds it). -/
def jsToLower (s : String) : String :=
  String.mk (s.data.map Char.toLower)

/-- Model of JS `Array.prototype.findIndex`: index of the first element
satisfying `p`, or `-1` when none does. -/
def jsFindIndex (p : α → Bool) : List α → Int
  | [] => -1
  | a :: as =>
    if p a then 0
    else if jsFindIndex p as = -1 then -1 else jsFindIndex p as + 1

/-- Model of JS `s.includes(c)` for a single character. -/
def jsContainsChar (s : String) (c : Char) : Bool :=
  s.data.contains c

/-- Numeric value of a list of decimal digit characters (most
significant first), as accumulated by a decimal parser. -/
def digitsToNat (l : List Char) : Nat :=
  l.foldl (fun n c => 10 * n + (c.toNat - 48)) 0

/-- A finite decimal literal as recognised by the JS `parseFloat`
builtin, kept exact: the value denoted is
`(if neg then -1 else 1) * digits * 10 ^ scale`, where `scale` is the
written exponent minus the number of fraction digits. -/
structure JsFloatLit where
  neg : Bool
  digits : Nat
  scale : Int
  deriving DecidableEq, Repr

/-- The exact rational value denoted by a parsed decimal literal. -/
def JsFloatLit.toRat (f : JsFloatLit) : ℚ :=
  ((if f.neg then -(f.digits : Int) else (f.digits : Int) : Int) : ℚ) * (10 : ℚ) ^ f.scale

/-- Exponent part of a decimal literal: optional sign then digits; a
malformed exponent (no digits) contributes `0`, since `parseFloat` then
stops before the `e`/`E` and keeps only the mantissa. -/
def expVal (l : List Char) : Int :=
  match l with
  | '+' :: t =>
    if (t.takeWhile Char.isDigit).isEmpty then 0 else (digitsToNat (t.takeWhile Char.isDigit) : Int)
  | '-' :: t =>
    if (t.takeWhile Char.isDigit).isEmpty then 0 else -(digitsToNat (t.takeWhile Char.isDigit) : Int)
  | _ =>
    if (l.takeWhile Char.isDigit).isEmpty then 0 else (digitsToNat (l.takeWhile Char.isDigit) : Int)

/-- Syntactic model of the JS `parseFloat` builtin on finite decimal
literals: skip leading whitespace, optional sign, integer digits, an
optional `.` with fraction digits, and an optional well-formed
`e`/`E` exponent; the longest valid prefix is parsed and the remainder
of the string is ignored.  Returns `none` ("NaN") when no mantissa digit
is present.  The denoted value is kept as an exact rational: the
IEEE-754 rounding that the JS runtime applies to the mathematical value
(observable beyond 17 significant digits) and the `Infinity` literal
are not modelled, so theorems invoke the value of this model only where
the double is exact — literals denoting integers of magnitude below
`2 ^ 53`. -/
def jsParseFloat (s : String) : Option JsFloatLit :=
  let l := dropLeadingWs s.data
  let neg : Bool := match l with | '-' :: _ => true | _ => false
  let l1 : List Char := match l with | '+' :: t => t | '-' :: t => t | _ => l
  let intPart := l1.takeWhile Char.isDigit
  let l2 := l1.dropWhile Char.isDigit
  let fracPart : List Char := match l2 with | '.' :: t => t.takeWhile Char.isDigit | _ => []
  let l3 : List Char := match l2 with | '.' :: t => t.dropWhile Char.isDigit | _ => l2
  if intPart.isEmpty ∧ fracPart.isEmpty then none
  else
    let e : Int := match l3 with
      | 'e' :: t => expVal t
      | 'E' :: t => expVal t
      | _ => 0
    some ⟨neg, digitsToNat (intPart ++ fracPart), e - fracPart.length⟩

/-- Model of JS `Math.round` on a parsed decimal literal: round half
toward positive infinity.  Computed with exact integer arithmetic; the
theorem `jsRoundLit_eq_floor` identifies it with `⌊value + 1/2⌋`. -/
def jsRoundLit (f : JsFloatLit) : Int :=
  let n : Int := if f.neg then -(f.digits : Int) else (f.digits : Int)
  if 0 ≤ f.scale then n * (10 : Int) ^ f.scale.toNat
  else (2 * n + (10 : Int) ^ (-f.scale).toNat) / (2 * (10 : Int) ^ (-f.scale).toNat)

/-- Decimal digits of a natural number, most significant first,
fuel-driven (the fuel is an upper bound on the number of digits). -/
def natDigitsAux : Nat → Nat → List Char → List Char
  | 0, _, acc => acc
  | fuel + 1, n, acc =>
    if n < 10 then Char.ofNat (48 + n % 10) :: acc
    else natDigitsAux fuel (n / 10) (Char.ofNat (48 + n % 10) :: acc)

/-- Decimal digit characters of `n`, most significant first. -/
def natDigits (n : Nat) : List Char :=
  natDigitsAux (n + 1) n []

/-- Model of JS `Number.prototype.toString` on exact integer values of
magnitude below `2 ^ 53`: an optional minus sign followed by decimal
digits.  (JS switches to exponential notation — which contains a
decimal point, e.g. `"1.5e+21"` — at magnitudes at or above `10 ^ 21`;
theorems apply this model only under an explicit `< 2 ^ 53` bound,
inside the plain-decimal range.) -/
def jsNumToString (n : Int) : String :=
  if n < 0 then String.mk ('-' :: natDigits n.natAbs) else String.mk (natDigits n.natAbs)

/-! ## CSVUpload.tsx lines 111-120 / ImportCsv.tsx lines 32-39:
normalizePhone (both files carry the identical function) -/

/-- The `phone.replace(/[^\d+]/g, '').substring(0, 20)` branch: keep
only decimal digits and `+` signs (a `+` survives wherever it occurs),
then truncate to 20 characters. -/
def stripNonDigitPlus (phone : String) : String :=
  String.mk ((phone.data.filter fun c => c.isDigit || c == '+').take 20)

/-- `normalizePhone` (`CSVUpload.tsx` lines 111-120 and `ImportCsv.tsx`
lines 32-39): empty input maps to the empty string; when the input
parses as a number (`!isNaN(parseFloat(phone))`) and contains a capital
`E`, the value is rounded and stringified; otherwise all characters
except digits and `+` are stripped and the result truncated to 20
characters. -/
def normalizePhone (phone : String) : String :=
  if phone = "" then ""
  else
    match jsParseFloat phone with
    | some f =>
      if jsContainsChar phone 'E' then jsNumToString (jsRoundLit f)
      else stripNonDigitPlus phone
    | none => stripNonDigitPlus phone

/-- The stripping rule as the words of claim C3 and spec §4.1 state it:
keep digits and a single LEADING `+` only, then truncate to 20
characters.  Written from the specification sentence (not the source),
to be compared against the source-derived behaviour. -/
def claimStripPhone (phone : String) : String :=
  match phone.data with
  | '+' :: rest => String.mk (('+' :: rest.filter Char.isDigit).take 20)
  | l => String.mk ((l.filter Char.isDigit).take 20)

/-! ## CSVUpload.tsx: getColumnIndex (lines 91-101) -/

/-- The predicate tested by `headers.findIndex` inside `getColumnIndex`
(`CSVUpload.tsx` lines 93-97): the header contains the (lower-cased)
variation, or the variation contains the header, or they are equal. -/
def headerMatchesVariation (header variation : String) : Bool :=
  jsIncludes header (jsToLower variation) ||
    jsIncludes (jsToLower variation) header ||
    header == jsToLower variation

/-- `getColumnIndex` of `CSVUpload.tsx` (lines 91-101): walk the column
variations in priority order, returning the first header index whose
header matches, and `-1` when no variation matches any header. -/
def getColumnIndex (headers : List String) : List String → Int
  | [] => -1
  | variation :: rest =>
    if jsFindIndex (fun header => headerMatchesVariation header variation) headers ≠ -1 then
      jsFindIndex (fun header => headerMatchesVariation header variation) headers
    else getColumnIndex headers rest

/-- Model of JS `a || b` on strings: JS treats `undefined` and `""` as
falsy, and every lookup in this model returns `""` for an absent key, so
`a || b` is `b` exactly when `a` is empty. -/
def jsOr (a b : String) : String :=
  if a = "" then b else a

/-- Split a character list at every occurrence of `sep` (JS
`String.prototype.split` with a single-character separator): `n`
separators yield `n + 1` segments, empty segments included. -/
def splitOnChar (sep : Char) : List Char → List (List Char)
  | [] => [[]]
  | c :: cs =>
    match splitOnChar sep cs with
    | [] => [[c]]
    | line :: rest => if c = sep then [] :: line :: rest else (c :: line) :: rest

/-- Model of JS `text.split('\n')`. -/
def jsSplitNewline (s : String) : List String :=
  (splitOnChar '\n' s.data).map String.mk

/-- Model of JS `s.split(',')`. -/
def jsSplitComma (s : String) : List String :=
  (splitOnChar ',' s.data).map String.mk

/-- Remove one trailing carriage return, used to model the `\r?` part of
splitting on `/\r?\n/`. -/
def dropTrailingCR (l : List Char) : List Char :=
  match l.reverse with
  | '\r' :: t => t.reverse
  | _ => l

/-- All segments except the last were terminated by a real `\n` in the
input, so the `\r?` of `/\r?\n/` strips one `\r` from their ends. -/
def dropCRSegs : List (List Char) → List (List Char)
  | [] => []
  | [l] => [l]
  | l :: rest => dropTrailingCR l :: dropCRSegs rest

/-- Model of JS `content.split(/\r?\n/)`. -/
def splitReNewline (content : String) : List String :=
  (dropCRSegs (splitOnChar '\n' content.data)).map String.mk

/-- Model of `content.replace(/^﻿/, '')`: strip one leading
byte-order mark. -/
def stripBOM (s : String) : String :=
  match s.data with
  | c :: t => if c = '﻿' then String.mk t else s
  | [] => s

/-! ## ImportCsv.tsx: parseCsv (lines 15-29) -/

/-- The row object built by `parseCsv`: `header.forEach((h, idx) =>
obj[h] = cols[idx] ?? '')`.  A JS object assignment sequence is modelled
as an association list in assignment order; a later duplicate key
overwrites an earlier one, so lookups must take the *last* binding. -/
def buildRowObj (header cols : List String) : List (String × String) :=
  header.enum.map fun p => (p.2, cols.getD p.1 "")

/-- Property read `r[k]` on a row object, with `undefined` collapsed to
`""` (every consumer immediately applies `|| ''` or an equivalent): the
last assignment wins. -/
def rowLookup (r : List (String × String)) (k : String) : String :=
  match r.reverse.find? (fun p => p.1 == k) with
  | some p => p.2
  | none => ""

/-- `parseCsv` of `ImportCsv.tsx` (lines 15-29): strip a BOM, split on
`/\r?\n/`, drop blank lines, lower-case and trim the header cells, and
turn each data line into a row object keyed by header. -/
def parseCsv (content : String) : List (List (String × String)) :=
  let normalizedContent := stripBOM content
  let lines := (splitReNewline normalizedContent).filter fun l => jsTrim l ≠ ""
  match lines with
  | [] => []
  | headerLine :: rest =>
    let header := (jsSplitComma headerLine).map fun h => jsToLower (jsTrim h)
    rest.map fun line => buildRowObj header ((jsSplitComma line).map jsTrim)

/-! ## ImportCsv.tsx: splitFullName (lines 42-53) -/

/-- Tokeniser for `fullName.split(/\s+/)` on an already-trimmed string:
maximal whitespace runs separate the tokens. -/
def splitWsAux : List Char → List Char → List String
  | [], cur => if cur.isEmpty then [] else [String.mk cur.reverse]
  | c :: cs, cur =>
    if c.isWhitespace then
      if cur.isEmpty then splitWsAux cs []
      else String.mk cur.reverse :: splitWsAux cs []
    else splitWsAux cs (c :: cur)

/-- `parts.slice(1).join(' ')`. -/
def joinSpace : List String → String
  | [] => ""
  | [s] => s
  | s :: rest => s ++ " " ++ joinSpace rest

/-- `splitFullName` of `ImportCsv.tsx` (lines 42-53): trim; empty gives
two empty strings; a single token is the first name; otherwise the first
token is the first name and the remaining tokens joined by one space are
the last name. -/
def splitFullName (fullName : String) : String × String :=
  let trimmed := jsTrim fullName
  if trimmed = "" then ("", "")
  else
    match splitWsAux trimmed.data [] with
    | [] => ("", "")
    | [p] => (p, "")
    | p :: rest => (p, joinSpace rest)

/-! ## Customer drafts and the ImportCsv.tsx row loop (lines 78-118) -/

/-- The `Customer` shape produced by the importers and consumed by
`customerService.ts` (`src/types/customer`).  `id` is
`crypto.randomUUID()` in the source — an opaque fresh identifier that
never takes part in validation or in the upsert conflict key; the model
leaves it as an uninterpreted string.  Fields the importers leave
`undefined` (`sales_rep_id`, `client_id`) are `Option`s defaulting to
`none`. -/
structure Customer where
  id : String := ""
  sales_rep_user_id : String
  sales_rep_id : Option String := none
  client_id : Option String := none
  first_name : String
  last_name : String
  email : String
  phone_no : String
  source : String
  notes : Option String := none
  status : String := "pending"
  deriving DecidableEq, Repr

/-- Outcome of mapping one CSV row in `ImportCsv.handleFile`. -/
inductive RowOutcome where
  | ok (c : Customer)
  | err (msg : String)
  deriving DecidableEq, Repr

/-- The draft when mapping succeeds, `none` otherwise. -/
def RowOutcome.draft : RowOutcome → Option Customer
  | .ok c => some c
  | .err _ => none

/-- The error message when mapping fails, `none` otherwise. -/
def RowOutcome.errMsg : RowOutcome → Option String
  | .ok _ => none
  | .err m => some m

/-- Name resolution of `ImportCsv.handleFile` (lines 79-89): explicit
`first_name`/`firstname` and `last_name`/`lastname` columns, with a
`full name`/`fullname`/`name` column split to fill whichever of the two
is still empty. -/
def importCsvResolvedName (r : List (String × String)) : String × String :=
  let firstName := jsOr (rowLookup r "first_name") (rowLookup r "firstname")
  let lastName := jsOr (rowLookup r "last_name") (rowLookup r "lastname")
  let fullName := jsOr (jsOr (rowLookup r "full name") (rowLookup r "fullname")) (rowLookup r "name")
  if fullName ≠ "" ∧ (firstName = "" ∨ lastName = "") then
    (jsOr firstName (splitFullName fullName).1, jsOr lastName (splitFullName fullName).2)
  else (firstName, lastName)

/-- Email resolution of `ImportCsv.handleFile` (line 91). -/
def importCsvResolvedEmail (r : List (String × String)) : String :=
  rowLookup r "email"

/-- The successful draft built by `ImportCsv.handleFile` (lines 107-117)
for the authenticated user `uid`. -/
def importCsvDraft (uid : String) (r : List (String × String)) : Customer :=
  { id := ""
    sales_rep_user_id := uid
    first_name := jsOr (importCsvResolvedName r).1 "Unknown"
    last_name := jsOr (importCsvResolvedName r).2 "Unknown"
    email := importCsvResolvedEmail r
    phone_no := normalizePhone (jsOr (jsOr (jsOr (rowLookup r "phone_no")
      (rowLookup r "phonenumber")) (rowLookup r "phone number")) (rowLookup r "phone"))
    source := jsOr (rowLookup r "source") "csv"
    notes := if rowLookup r "notes" = "" then none else some (rowLookup r "notes")
    status := jsToLower (jsOr (rowLookup r "status") "pending") }

/-- Body of the `rows.forEach` of `ImportCsv.handleFile` (lines 78-118)
at data row index `idx` (0-based; the display row number is `idx + 2`
because the header is row 1). -/
def importCsvMapRow (uid : String) (r : List (String × String)) (idx : Nat) : RowOutcome :=
  if importCsvResolvedEmail r = "" ∨ jsContainsChar (importCsvResolvedEmail r) '@' = false then
    .err ("Row " ++ toString (idx + 2) ++ ": Invalid or missing email")
  else if (importCsvResolvedName r).1 = "" ∧ (importCsvResolvedName r).2 = "" then
    .err ("Row " ++ toString (idx + 2) ++ ": Missing name (provide Full Name or First/Last Name)")
  else
    .ok (importCsvDraft uid r)

/-- The accumulation of drafts and error strings across all data rows,
indexed from `startIdx`. -/
def importCsvProcessRowsAux (uid : String) :
    List (List (String × String)) → Nat → List Customer × List String
  | [], _ => ([], [])
  | r :: rest, idx =>
    match importCsvMapRow uid r idx with
    | .ok c =>
      ((importCsvProcessRowsAux uid rest (idx + 1)).1.cons c,
        (importCsvProcessRowsAux uid rest (idx + 1)).2)
    | .err m =>
      ((importCsvProcessRowsAux uid rest (idx + 1)).1,
        (importCsvProcessRowsAux uid rest (idx + 1)).2.cons m)

/-- Drafts and errors produced by the `rows.forEach` loop of
`ImportCsv.handleFile`. -/
def importCsvProcessRows (uid : String)
    (rows : List (List (String × String))) : List Customer × List String :=
  importCsvProcessRowsAux uid rows 0

/-! ## customerService.ts: insertCustomers / upsertCustomers
(lines 53-103) -/

/-- The rows sent to the persistence layer by `insertCustomers` and
`upsertCustomers`: `{...mapToDb(customer), sales_rep_user_id:
userData.user.id}` — only the representative identity is overwritten
with the authenticated caller's id; all other columns (including
`client_id`) are carried over from the draft. -/
def customersToPersist (callerUid : String) (customers : List Customer) : List Customer :=
  customers.map fun c => { c with sales_rep_user_id := callerUid }

/-- Conflict-key test of the `upsert` call: `onConflict:
'sales_rep_user_id,email'`. -/
def sameConflictKey (a b : Customer) : Bool :=
  a.sales_rep_user_id == b.sales_rep_user_id && a.email == b.email

/-- PostgreSQL `INSERT ... ON CONFLICT (sales_rep_user_id, email) DO
UPDATE` semantics for one row: replace the row holding the conflict key
when present, append otherwise. -/
def upsertApply (table : List Customer) (row : Customer) : List Customer :=
  if table.any (fun t => sameConflictKey t row) then
    table.map fun t => if sameConflictKey t row then row else t
  else table ++ [row]

/-- `upsertCustomers` of `customerService.ts` (lines 78-103) acting on a
table state: every row is attributed to the caller, then upserted on the
`(sales_rep_user_id, email)` conflict key. -/
def upsertCustomersTable (callerUid : String) (table : List Customer)
    (customers : List Customer) : List Customer :=
  (customersToPersist callerUid customers).foldl upsertApply table

/-- `insertCustomers` of `customerService.ts` (lines 53-76) acting on a
table state (the collision-free case: a unique-key violation would
reject the whole batch and leave the table unchanged, which none of the
proved claims exercises). -/
def insertCustomersTable (callerUid : String) (table : List Customer)
    (customers : List Customer) : List Customer :=
  table ++ customersToPersist callerUid customers

/-! ## Empty-batch failure messages (CSVUpload.tsx lines 162-167,
ImportCsv.tsx lines 120-130) and the import orchestrators -/

/-- `errors.join('\n')`. -/
def joinNewline : List String → String
  | [] => ""
  | [s] => s
  | s :: rest => s ++ "\n" ++ joinNewline rest

/-- The empty-batch failure message of `CSVUpload.handleFileUpload`
(lines 162-167): first five errors, then a count of the remainder when
more than five exist, or a generic message when no errors were
collected. -/
def csvUploadEmptyBatchMsg (errors : List String) : String :=
  if 0 < errors.length then
    "No valid rows found. Errors:\n" ++ joinNewline (errors.take 5) ++
      (if 5 < errors.length then "\n...and " ++ toString (errors.length - 5) ++ " more" else "")
  else "No data rows found in CSV file"

/-- The empty-batch failure message of `ImportCsv.handleFile`
(lines 120-130): first five errors — with *no* count of the remainder —
or a generic message when no errors were collected. -/
def importCsvEmptyBatchMsg (errors : List String) : String :=
  if 0 < errors.length then
    "No valid rows found. Errors:\n" ++ joinNewline (errors.take 5)
  else "CSV did not contain any valid rows."

/-- Outcome of one import invocation. -/
inductive ImportResult where
  | failure (message : String)
  | imported (count : Nat) (skipped : Nat)
  deriving DecidableEq, Repr

/-- `ImportCsv.handleFile` (lines 62-159) as a state transformer on the
customers table (default mode `'upsert'`): parse, map rows, fail with
the aggregate message when no row survived (performing no write), else
upsert the batch as the authenticated caller. -/
def importCsvRun (uid : String) (text : String) (table : List Customer) :
    ImportResult × List Customer :=
  let res := importCsvProcessRows uid (parseCsv text)
  if res.1.length = 0 then (.failure (importCsvEmptyBatchMsg res.2), table)
  else (.imported res.1.length res.2.length, upsertCustomersTable uid table res.1)

/-! ## CSVUpload.tsx: handleFileUpload row loop (lines 88-167) -/

/-- `h.replace(/"/g, '')`. -/
def removeQuotes (s : String) : String :=
  String.mk (s.data.filter fun c => c ≠ '"')

/-- The six inferred column indices of `handleFileUpload`
(lines 103-108). -/
structure ColIdx where
  firstName : Int
  lastName : Int
  email : Int
  phone : Int
  source : Int
  notes : Int
  deriving DecidableEq, Repr

/-- Column inference of `handleFileUpload` over the lower-cased,
quote-stripped headers (lines 88, 103-108). -/
def csvUploadColumnIdx (headers : List String) : ColIdx :=
  { firstName := getColumnIndex headers ["firstname", "first_name", "fname", "first name"]
    lastName := getColumnIndex headers ["lastname", "last_name", "lname", "last name"]
    email := getColumnIndex headers ["email", "email_address", "mail"]
    phone := getColumnIndex headers ["phoneno", "phone_no", "phone", "mobile", "contact"]
    source := getColumnIndex headers ["source", "lead_source", "origin"]
    notes := getColumnIndex headers ["notes", "note", "remarks", "comments", "description"] }

/-- The record pushed into `clientsData` by `handleFileUpload`
(lines 151-159). -/
structure ClientData where
  sales_rep_user_id : String
  first_name : String
  last_name : String
  email : String
  phone_no : String
  source : String
  notes : String
  deriving DecidableEq, Repr

/-- `columns[idx]?.trim()` guarded by `idx !== -1`, with JS `undefined`
(out-of-range index) collapsed to `""`. -/
def colAt (columns : List String) (idx : Int) : String :=
  if idx = -1 then "" else jsTrim (columns.getD idx.toNat "")

/-- Per-row outcome inside the `handleFileUpload` loop: silently skipped
(all columns empty), a validated record, or a row error. -/
inductive CsvRowStep where
  | skip
  | ok (c : ClientData)
  | err (msg : String)
  deriving DecidableEq, Repr

/-- Body of the `for` loop of `handleFileUpload` (lines 127-160) at data
row index `i` (0-based over the non-blank data rows; display row number
`i + 2`). -/
def csvUploadMapRow (uid : String) (ci : ColIdx) (line : String) (i : Nat) : CsvRowStep :=
  let columns := (parseCSVLine line).map removeQuotes
  if ¬ columns.any (fun col => 0 < col.length) then .skip
  else
    let firstName := colAt columns ci.firstName
    let lastName := colAt columns ci.lastName
    let email := colAt columns ci.email
    let phone := if ci.phone ≠ -1 then normalizePhone (columns.getD ci.phone.toNat "") else ""
    let source := if ci.source ≠ -1 then jsOr (colAt columns ci.source) "CSV Import" else "CSV Import"
    let notes := colAt columns ci.notes
    if email = "" ∨ jsContainsChar email '@' = false then
      .err ("Row " ++ toString (i + 2) ++ ": Invalid or missing email")
    else if firstName = "" ∧ lastName = "" then
      .err ("Row " ++ toString (i + 2) ++ ": Missing both first and last name")
    else
      .ok { sales_rep_user_id := uid
            first_name := jsOr firstName "Unknown"
            last_name := jsOr lastName "Unknown"
            email := email
            phone_no := phone
            source := source
            notes := notes }

/-- The record/error accumulation of the `handleFileUpload` loop. -/
def csvUploadLoopAux (uid : String) (ci : ColIdx) :
    List String → Nat → List ClientData × List String
  | [], _ => ([], [])
  | line :: rest, i =>
    match csvUploadMapRow uid ci line i with
    | .skip => csvUploadLoopAux uid ci rest (i + 1)
    | .ok c =>
      ((csvUploadLoopAux uid ci rest (i + 1)).1.cons c,
        (csvUploadLoopAux uid ci rest (i + 1)).2)
    | .err m =>
      ((csvUploadLoopAux uid ci rest (i + 1)).1,
        (csvUploadLoopAux uid ci rest (i + 1)).2.cons m)

/-- `handleFileUpload` row processing (lines 53-160): split the file on
`'\n'`, infer columns from the first line, drop blank data lines, and
run the row loop. -/
def csvUploadProcess (uid : String) (text : String) : List ClientData × List String :=
  let lines := jsSplitNewline text
  let headers := (parseCSVLine (lines.headD "")).map fun h => removeQuotes (jsToLower h)
  let ci := csvUploadColumnIdx headers
  let dataRows := (lines.drop 1).filter fun line => jsTrim line ≠ ""
  csvUploadLoopAux uid ci dataRows 0

/-- `handleFileUpload` (lines 122-185) as a state transformer on the
customers table: throw the aggregate message when no row survived
(before the insert call, hence no write), else insert the batch as the
authenticated caller. -/
def csvUploadRun (uid : String) (text : String) (table : List ClientData) :
    ImportResult × List ClientData :=
  let res := csvUploadProcess uid text
  if res.1.length = 0 then (.failure (csvUploadEmptyBatchMsg res.2), table)
  else (.imported res.1.length res.2.length, table ++ res.1)


/-! ## supabase/functions/webhook-customer-onboard/index.ts:
the customer-onboarding webhook handler -/

/-- A `sales_reps` row as read by the webhook handler (`user_id,
client_id` selected; `email` filtered on). -/
structure SalesRepRow where
  user_id : String
  client_id : String
  email : String
  deriving DecidableEq, Repr

/-- Webhook request payload (`CustomerPayload`); JS `undefined`/missing
strings are modelled as `""` for the required fields (the handler treats
both as falsy) and as `Option` for the optional ones. -/
structure OnboardPayload where
  first_name : String
  last_name : String
  email : String
  phone_no : String
  sales_rep_email : String
  source : String
  notes : Option String := none
  status : Option String := none
  deriving DecidableEq, Repr

/-- Persistence state visible to the webhook handler. -/
structure WebhookState where
  salesReps : List SalesRepRow
  customers : List Customer
  deriving DecidableEq, Repr

/-- HTTP-level response of the webhook handler. -/
structure HttpResponse where
  status : Nat
  success : Bool
  message : String
  deriving DecidableEq, Repr

/-- `maybeSingle()` semantics: the single matching row, or `none` when
zero match; two or more matches produce an error object, which every
caller in this file treats exactly like `none` (the destructured `data`
is null), so the model collapses both to `none`. -/
def findExactlyOne (p : α → Bool) (l : List α) : Option α :=
  match l.filter p with
  | [x] => some x
  | _ => none

/-- The `webhook-customer-onboard` `serve` handler (index.ts lines
25-119) as a state transformer: CORS preflight, method check, required
fields, service-role key check, sales-rep lookup by lower-cased email
(404 when unresolved, with no write), then the customer insert (the
database-error branch of the insert is not modelled: the write is
assumed to succeed).  `hasServiceKey` models the presence of the
`SUPABASE_SERVICE_ROLE_KEY` environment variable. -/
def webhookCustomerOnboard (hasServiceKey : Bool) (st : WebhookState)
    (method : String) (payload : OnboardPayload) : HttpResponse × WebhookState :=
  if method = "OPTIONS" then ({ status := 200, success := true, message := "" }, st)
  else if method ≠ "POST" then
    ({ status := 405, success := false, message := "Method not allowed" }, st)
  else if payload.first_name = "" ∨ payload.last_name = "" ∨ payload.email = "" ∨
      payload.phone_no = "" ∨ payload.sales_rep_email = "" then
    ({ status := 400, success := false, message := "Missing required fields" }, st)
  else if hasServiceKey = false then
    ({ status := 500, success := false, message := "Server misconfiguration" }, st)
  else
    match findExactlyOne (fun rep => rep.email == jsToLower payload.sales_rep_email)
        st.salesReps with
    | none =>
      ({ status := 404, success := false, message := "Sales representative not found" }, st)
    | some rep =>
      let customer : Customer :=
        { id := ""
          sales_rep_user_id := rep.user_id
          client_id := some rep.client_id
          first_name := payload.first_name
          last_name := payload.last_name
          email := jsToLower payload.email
          phone_no := payload.phone_no
          source := payload.source
          notes := payload.notes
          status := payload.status.getD "pending" }
      ({ status := 200, success := true, message := "Customer onboarded successfully" },
        { st with customers := st.customers ++ [customer] })

/-! ## supabase/functions/webhook-customer-onboard/index.ts:
the invite-sales-rep handler -/

/-- An identity-provider user (`auth.users`). -/
structure AuthUser where
  id : String
  email : String
  deriving DecidableEq, Repr

/-- A `profiles` row. -/
structure Profile where
  user_id : String
  role : String
  display_name : Option String := none
  client_id : Option String := none
  deriving DecidableEq, Repr

/-- A `user_roles` row. -/
structure UserRole where
  user_id : String
  role : String
  tenant_id : String
  deriving DecidableEq, Repr

/-- An `audit_logs` row; the `new_data` JSON object `{email, first_name,
last_name, phone_no}` is modelled by its four fields. -/
structure AuditLog where
  tenant_id : String
  user_id : Option String
  action : String
  resource_type : String
  resource_id : Option String
  new_data_email : String
  new_data_first_name : String
  new_data_last_name : String
  new_data_phone_no : Option String
  deriving DecidableEq, Repr

/-- A `sales_reps` row as written by the invite handler. -/
structure SalesRepRec where
  id : String
  user_id : String
  client_id : String
  first_name : String
  last_name : String
  email : String
  phone_no : Option String := none
  status : String
  deriving DecidableEq, Repr

/-- Persistence and identity-provider state visible to the invite
handler. -/
structure AdminState where
  users : List AuthUser
  profiles : List Profile
  userRoles : List UserRole
  auditLogs : List AuditLog
  salesReps : List SalesRepRec
  deriving DecidableEq, Repr

/-- Behaviour of the external identity provider and tenant-provisioning
RPC during one invocation: whether `inviteUserByEmail` succeeds, whether
the `createUser` fallback succeeds, the id given to a newly created
identity, the database-generated id of a newly inserted `sales_reps`
row, and the result of the `ensure_user_client` RPC (a database function
defined outside the sources in scope; `none` models its failure). -/
structure IdpBehavior where
  inviteWorks : Bool
  createWorks : Bool
  freshUserId : String
  freshRepId : String
  ensuredClientId : Option String := none
  deriving DecidableEq, Repr

/-- Invite request payload (`InvitePayload`). -/
structure InvitePayload where
  first_name : String
  last_name : String
  email : String
  phone_no : Option String := none
  deriving DecidableEq, Repr

/-- Response of the invite handler. -/
structure InviteResponse where
  status : Nat
  success : Bool
  createdUser : Option Bool := none
  user_id : Option String := none
  message : Option String := none
  deriving DecidableEq, Repr

/-- Identity resolution of the invite handler (lines 243-313):
`findUserByEmail` (case-insensitive scan of the identity provider; the
10-page bound of the paged scan is not modelled), then the invite flow,
then the `createUser` fallback, then one final lookup (which over an
unchanged provider state finds nothing new).  Returns the resolved user
together with the `created` flag, or `none` when every path failed. -/
def inviteResolveUser (users : List AuthUser) (idp : IdpBehavior)
    (email : String) : Option (AuthUser × Bool) :=
  match users.find? (fun u => jsToLower u.email == jsToLower email) with
  | some u => some (u, false)
  | none =>
    if idp.inviteWorks then some (⟨idp.freshUserId, email⟩, true)
    else if idp.createWorks then some (⟨idp.freshUserId, email⟩, true)
    else none

/-- `profiles` upsert with `onConflict: "user_id"` (lines 316-324). -/
def profilesUpsert (ps : List Profile) (uid role displayName clientId : String) :
    List Profile :=
  if ps.any (fun p => p.user_id == uid) then
    ps.map fun p =>
      if p.user_id == uid then
        { user_id := uid, role := role, display_name := some displayName,
          client_id := some clientId }
      else p
  else
    ps ++ [{ user_id := uid, role := role, display_name := some displayName,
             client_id := some clientId }]

/-- `user_roles` upsert with `onConflict: "user_id,role,tenant_id"`
(lines 330-337): the conflict key is the whole payload, so a conflicting
row is updated to itself and the table is unchanged. -/
def userRolesUpsert (rs : List UserRole) (uid role tenant : String) : List UserRole :=
  if rs.any (fun r => r.user_id == uid && r.role == role && r.tenant_id == tenant) then rs
  else rs ++ [⟨uid, role, tenant⟩]

/-- The `invite-sales-rep` `serve` handler (index.ts lines 140-414) as a
state transformer: method and field checks, service-key check,
authentication, the caller's profile must carry the `client_admin` role,
tenant resolution (lazily provisioned through `ensure_user_client` when
the profile has no client), identity resolution, best-effort profile and
role upserts, one audit-log insert, and the `sales_reps`
update-or-insert keyed on `(client_id, email)` with status `"active"`.
Database write errors of the best-effort steps are warnings in the
source and the hard-failure branches of the final writes are not
modelled: writes succeed. -/
def inviteSalesRep (hasServiceKey : Bool) (idp : IdpBehavior) (st : AdminState)
    (method : String) (authUser : Option AuthUser) (payload : InvitePayload) :
    InviteResponse × AdminState :=
  if method = "OPTIONS" then ({ status := 200, success := true }, st)
  else if method ≠ "POST" then
    ({ status := 405, success := false, message := some "Method not allowed" }, st)
  else if payload.first_name = "" ∨ payload.last_name = "" ∨ payload.email = "" then
    ({ status := 400, success := false, message := some "Missing required fields" }, st)
  else if hasServiceKey = false then
    ({ status := 500, success := false, message := some "Server misconfiguration" }, st)
  else
    match authUser with
    | none => ({ status := 401, success := false, message := some "Unauthorized" }, st)
    | some user =>
      match st.profiles.find? (fun p => p.user_id == user.id) with
      | none =>
        ({ status := 403, success := false, message := some "Forbidden: requires client_admin" }, st)
      | some profile =>
        if profile.role ≠ "client_admin" then
          ({ status := 403, success := false, message := some "Forbidden: requires client_admin" }, st)
        else
          match profile.client_id.orElse (fun _ => idp.ensuredClientId) with
          | none => ({ status := 500, success := false, message := some "Failed to ensure client" }, st)
          | some clientId =>
            match inviteResolveUser st.users idp payload.email with
            | none =>
              ({ status := 400, success := false, message := some "Failed to create or find user" }, st)
            | some (salesUser, created) =>
              let displayName := payload.first_name ++ " " ++ payload.last_name
              let st1 := { st with
                profiles := profilesUpsert st.profiles salesUser.id "sales_rep" displayName clientId
                userRoles := userRolesUpsert st.userRoles salesUser.id "sales_rep" clientId }
              let audit : AuditLog :=
                { tenant_id := clientId
                  user_id := some user.id
                  action := "invite_sales_rep"
                  resource_type := "sales_rep"
                  resource_id := some salesUser.id
                  new_data_email := payload.email
                  new_data_first_name := payload.first_name
                  new_data_last_name := payload.last_name
                  new_data_phone_no := payload.phone_no }
              let st2 := { st1 with auditLogs := st1.auditLogs ++ [audit] }
              match findExactlyOne
                  (fun r => r.client_id == clientId && r.email == payload.email)
                  st2.salesReps with
              | some existing =>
                let st3 := { st2 with salesReps := st2.salesReps.map (fun r =>
                  if r.id == existing.id then
                    { r with
                      user_id := salesUser.id
                      first_name := payload.first_name
                      last_name := payload.last_name
                      phone_no := payload.phone_no
                      status := "active" }
                  else r) }
                ({ status := 200, success := true, createdUser := some created,
                   user_id := some salesUser.id }, st3)
              | none =>
                let st3 := { st2 with salesReps := st2.salesReps ++
                  [{ id := idp.freshRepId, user_id := salesUser.id, client_id := clientId,
                     first_name := payload.first_name, last_name := payload.last_name,
                     email := payload.email, phone_no := payload.phone_no,
                     status := "active" }] }
                ({ status := 200, success := true, createdUser := some created,
                   user_id := some salesUser.id }, st3)

/-! ## Concrete fixtures used by the claims -/

/-- A CSV file with three valid data rows and two invalid ones (data row
2 has an email without `@`, data row 4 has neither name), exercising the
row-isolation claim. -/
def csvFixture : String :=
  "email,first_name,last_name\na@x.com,Alice,A\nbad-email,Bob,B\nc@x.com,Carol,C\nd@x.com,,\ne@x.com,Eve,E"

/-- A CSV file whose six data rows all fail email validation, so the
successful batch is empty with six collected errors. -/
def badCsvFixture : String :=
  "email,name\nbad1,A\nbad2,B\nbad3,C\nbad4,D\nbad5,E\nbad6,F"

/-- A draft carrying foreign ownership values: a `sales_rep_user_id` and
a tenant (`client_id`) that are not the importing caller's. -/
def draftA : Customer :=
  { sales_rep_user_id := "attacker-uid", client_id := some "tenant-a", first_name := "A",
    last_name := "B", email := "a@x.com", phone_no := "", source := "csv" }

/-- A second foreign-ownership draft with a different tenant. -/
def draftB : Customer :=
  { sales_rep_user_id := "attacker-uid", client_id := some "tenant-b", first_name := "C",
    last_name := "D", email := "c@x.com", phone_no := "", source := "csv" }


/-- A webhook state with one sales representative and no customers. -/
def webhookStateFixture : WebhookState :=
  { salesReps := [{ user_id := "u7", client_id := "t1", email := "rep@x.com" }]
    customers := [] }

/-- An onboarding payload addressed to an email that resolves to no
representative (case-insensitively). -/
def unknownRepPayload : OnboardPayload :=
  { first_name := "A", last_name := "B", email := "C@x.com", phone_no := "1",
    sales_rep_email := "Other@X.com", source := "webhook" }

/-- An admin state with a single client-admin profile and nothing else:
no identity, no representative, no audit entry. -/
def adminStateFixture : AdminState :=
  { users := []
    profiles := [{ user_id := "admin1", role := "client_admin",
                   display_name := some "Admin", client_id := some "t1" }]
    userRoles := []
    auditLogs := []
    salesReps := [] }

/-- An identity provider whose invite channel works. -/
def idpFixture : IdpBehavior :=
  { inviteWorks := true, createWorks := false, freshUserId := "newu",
    freshRepId := "rep-row-1", ensuredClientId := none }

/-- The invite payload of the concrete scenario. -/
def invitePayloadFixture : InvitePayload :=
  { first_name := "Jane", last_name := "Doe", email := "jane@x.com",
    phone_no := some "123" }

/-- The authenticated administrator of the concrete scenario. -/
def adminUserFixture : AuthUser :=
  { id := "admin1", email := "admin@x.com" }

end DealBoost

namespace DealBoost

theorem parseCSVLineAux_esc (l : List Char) :
    ∀ cur, parseCSVLineAux (escChars l ++ ['"']) cur true
      = [jsTrim (String.mk (cur ++ l))] := by
  induction l with
  | nil =>
    intro cur
    simp [escChars, parseCSVLineAux]
  | cons c cs ih =>
    intro cur
    by_cases hc : c = '"'
    · subst hc
      simpa [escChars, parseCSVLineAux, List.append_assoc] using ih (cur ++ ['"'])
    · simpa [escChars, parseCSVLineAux, hc, List.append_assoc] using ih (cur ++ [c])

/-- **C1.** A double-quote-wrapped field whose body has its literal `"`
characters escaped by doubling is parsed by `parseCSVLine` as exactly one
field whose value is the (trimmed) body — commas and escaped quotes in the
body are literal.  In particular the input field `"Doe, ""Jr"""` parses to
the single field `Doe, "Jr"`. -/
theorem parseCSVLine_quoted_roundtrip :
    (∀ s : String, parseCSVLine (quoteWrap s) = [jsTrim s]) ∧
      parseCSVLine "\"Doe, \"\"Jr\"\"\"" = ["Doe, \"Jr\""] := by
  constructor
  · intro s
    have hdata : (quoteWrap s).data = '"' :: (escChars s.data ++ ['"']) := by
      simp [quoteWrap, String.data_append]
    rw [parseCSVLine, hdata]
    rcases hesc : escChars s.data ++ ['"'] with _ | ⟨c, rest⟩
    · simp at hesc
    · rw [show parseCSVLineAux ('"' :: (c :: rest)) [] false
          = parseCSVLineAux (c :: rest) [] true from by simp [parseCSVLineAux]]
      rw [← hesc, parseCSVLineAux_esc]
      cases s
      simp
  · decide

theorem jsFindIndex_nonneg (p : α → Bool) (l : List α)
    (h : jsFindIndex p l ≠ -1) : 0 ≤ jsFindIndex p l := by
  induction l with
  | nil => simp [jsFindIndex] at h
  | cons a as ih =>
    by_cases ha : p a = true
    · simp [jsFindIndex, ha]
    · by_cases has : jsFindIndex p as = -1
      · simp [jsFindIndex, ha, has] at h
      · have := ih has
        simp only [jsFindIndex, if_neg ha, if_neg has]
        omega

theorem jsFindIndex_eq_neg_one_iff (p : α → Bool) (l : List α) :
    jsFindIndex p l = -1 ↔ ∀ a ∈ l, p a = false := by
  induction l with
  | nil => simp [jsFindIndex]
  | cons a as ih =>
    by_cases ha : p a = true
    · simp [jsFindIndex, ha]
    · have ha' : p a = false := by simpa using ha
      by_cases has : jsFindIndex p as = -1
      · constructor
        · intro _ x hx
          rcases List.mem_cons.mp hx with rfl | hx'
          · exact ha'
          · exact ih.mp has x hx'
        · intro _
          simp [jsFindIndex, ha', has]
      · have h0 := jsFindIndex_nonneg p as has
        have hne : jsFindIndex p as + 1 ≠ -1 := by omega
        simp only [jsFindIndex, if_neg ha, if_neg has]
        constructor
        · intro habs
          exact absurd habs hne
        · intro hall
          exact absurd (ih.mpr fun x hx => hall x (List.mem_cons_of_mem _ hx)) has

/-- **C2.** `getColumnIndex` returns `-1` exactly when no header matches
any variation (match = header contains the lower-cased variation, or the
variation contains the header, or exact equality); otherwise it returns
the first matching header index for the first matching variation taken in
caller-supplied priority order.  For the lower-cased headers
`["phone number", "mobile"]` and variation priority
`["phone_no", "phone", "mobile"]` the result is index `0`
(the "Phone Number" column), pinning the tie-break. -/
theorem getColumnIndex_not_found_iff :
    (∀ (headers variations : List String),
        getColumnIndex headers variations = -1 ↔
          ∀ v ∈ variations, ∀ h ∈ headers, headerMatchesVariation h v = false) ∧
      getColumnIndex ["phone number", "mobile"] ["phone_no", "phone", "mobile"] = 0 := by
  constructor
  · intro headers variations
    induction variations with
    | nil => simp [getColumnIndex]
    | cons v rest ih =>
      by_cases hv : jsFindIndex (fun header => headerMatchesVariation header v) headers = -1
      · have hall := (jsFindIndex_eq_neg_one_iff _ headers).mp hv
        simp only [getColumnIndex, hv, ne_eq, not_true_eq_false, if_false]
        rw [ih]
        constructor
        · intro hrest v' hv' h hh
          rcases List.mem_cons.mp hv' with rfl | hv'
          · exact hall h hh
          · exact hrest v' hv' h hh
        · intro hallv v' hv' h hh
          exact hallv v' (List.mem_cons_of_mem _ hv') h hh
      · have heq : getColumnIndex headers (v :: rest)
            = jsFindIndex (fun header => headerMatchesVariation header v) headers := by
          simp [getColumnIndex, hv]
        rw [heq]
        constructor
        · intro habs
          exact absurd habs hv
        · intro hallv
          exfalso
          apply hv
          rw [jsFindIndex_eq_neg_one_iff]
          intro h hh
          exact hallv v (List.mem_cons_self v rest) h hh
  · decide

/-- **C10.** An empty-string header (as produced by a trailing comma in
the header row, after lower-casing and quote-stripping) matches every
variation, because the "variation contains the header" test is vacuously
true for the empty header.  Hence column inference never returns `-1`
when an empty header is present, and the first empty header is returned
ahead of a genuinely matching header appearing later: with headers
`["", "email"]` and variations `["email"]` the result is index `0`. -/
theorem getColumnIndex_empty_header :
    (∀ (headers variations : List String) (v : String),
        "" ∈ headers → getColumnIndex headers (v :: variations) ≠ -1) ∧
      getColumnIndex ["", "email"] ["email"] = 0 := by
  constructor
  · intro headers variations v hmem
    have hmatch : headerMatchesVariation "" v = true := by
      simp [headerMatchesVariation, jsIncludes]
      cases h : (jsToLower v).data with
      | nil => simp [listContains, listPrefixOf]
      | cons c cs => simp [listContains, listPrefixOf]
    have hne : jsFindIndex (fun header => headerMatchesVariation header v) headers ≠ -1 := by
      intro habs
      have hall := (jsFindIndex_eq_neg_one_iff _ headers).mp habs
      have := hall "" hmem
      simp [hmatch] at this
    have heq : getColumnIndex headers (v :: variations)
        = jsFindIndex (fun header => headerMatchesVariation header v) headers := by
      simp [getColumnIndex, hne]
    rw [heq]
    exact hne
  · decide

/-- Witness for C10 at a concrete input: the header list `["x", ""]`
contains the empty header, so inference over variations `["nomatch"]`
does not return `-1`. -/
theorem getColumnIndex_empty_header_witness :
    getColumnIndex ["x", ""] ["nomatch"] ≠ -1 :=
  getColumnIndex_empty_header.1 ["x", ""] [] "nomatch" (by simp)

theorem floor_int_add_half (m : ℤ) : ⌊(m : ℚ) + 1 / 2⌋ = m := by
  rw [Int.floor_int_add]
  have h12 : ⌊(1 / 2 : ℚ)⌋ = 0 := by norm_num [Int.floor_eq_zero_iff]
  rw [h12, add_zero]

theorem floor_int_div_add_half (a : ℤ) (d : ℕ) (hd : 0 < d) :
    ⌊(a : ℚ) / (d : ℚ) + 1 / 2⌋ = (2 * a + (d : ℤ)) / (2 * (d : ℤ)) := by
  have hd0 : ((d : ℚ)) ≠ 0 := by positivity
  have hval : (a : ℚ) / (d : ℚ) + 1 / 2
      = ((2 * a + (d : ℤ) : ℤ) : ℚ) / ((2 * d : ℕ) : ℚ) := by
    push_cast
    field_simp
    ring
  rw [hval, Rat.floor_intCast_div_natCast]
  push_cast
  ring_nf

/-- The integer-arithmetic rounding of a parsed decimal literal agrees
with the mathematical "round half up" of its exact rational value. -/
theorem jsRoundLit_eq_floor (f : JsFloatLit) : jsRoundLit f = ⌊f.toRat + 1 / 2⌋ := by
  rcases f with ⟨neg, D, s⟩
  by_cases hs : 0 ≤ s
  · obtain ⟨k, rfl⟩ : ∃ k : ℕ, s = (k : Int) := ⟨s.toNat, by omega⟩
    have hval : JsFloatLit.toRat ⟨neg, D, (k : Int)⟩
        = (((if neg then -(D : Int) else (D : Int)) * (10 : Int) ^ k : Int) : ℚ) := by
      rw [JsFloatLit.toRat, zpow_natCast]
      push_cast
      ring
    rw [hval, floor_int_add_half, jsRoundLit]
    simp
  · obtain ⟨k, rfl⟩ : ∃ k : ℕ, s = -(k : Int) := ⟨(-s).toNat, by omega⟩
    have hkpos : 0 < k := by omega
    have hval : JsFloatLit.toRat ⟨neg, D, -(k : Int)⟩
        = (((if neg then -(D : Int) else (D : Int)) : Int) : ℚ) / ((10 ^ k : ℕ) : ℚ) := by
      rw [JsFloatLit.toRat, zpow_neg, zpow_natCast]
      push_cast
      ring
    rw [hval, floor_int_div_add_half _ _ (by positivity), jsRoundLit]
    have hcond : ¬ (0 ≤ -(k : Int)) := by omega
    rw [if_neg hcond]
    have htns : (-(-(k : Int))).toNat = k := by omega
    rw [htns]
    push_cast
    ring_nf

theorem natDigitsAux_chars (fuel : Nat) :
    ∀ n acc c, c ∈ natDigitsAux fuel n acc → c.isDigit = true ∨ c ∈ acc := by
  induction fuel with
  | zero =>
    intro n acc c hc
    exact Or.inr hc
  | succ fuel ih =>
    intro n acc c hc
    have hd : (Char.ofNat (48 + n % 10)).isDigit = true := by
      have h10 : n % 10 < 10 := Nat.mod_lt _ (by norm_num)
      set r := n % 10 with hr
      interval_cases r <;> decide
    rw [natDigitsAux] at hc
    by_cases hcase : n < 10
    · rw [if_pos hcase] at hc
      rcases List.mem_cons.mp hc with rfl | hacc
      · exact Or.inl hd
      · exact Or.inr hacc
    · rw [if_neg hcase] at hc
      rcases ih _ _ c hc with hdig | hmem
      · exact Or.inl hdig
      · rcases List.mem_cons.mp hmem with rfl | hacc
        · exact Or.inl hd
        · exact Or.inr hacc

/-- The decimal rendering of an integer never contains a decimal
point. -/
theorem jsNumToString_no_dot (m : Int) : '.' ∉ (jsNumToString m).data := by
  have hdigits : ∀ c ∈ natDigits m.natAbs, c ≠ '.' := by
    intro c hc heq
    rcases natDigitsAux_chars _ _ _ c hc with hd | habs
    · subst heq
      simp [Char.isDigit] at hd
    · simp at habs
  intro hmem
  rw [jsNumToString] at hmem
  by_cases hm : m < 0
  · rw [if_pos hm] at hmem
    rcases List.mem_cons.mp hmem with habs | hmem'
    · exact absurd habs (by decide)
    · exact hdigits _ hmem' rfl
  · rw [if_neg hm] at hmem
    exact hdigits _ hmem rfl

/-- **C3 counterexample.** Two parts of the claim fail on the code.
First, the claim says every character except digits and a single
*leading* `+` is removed, but `normalizePhone` keeps every `+` wherever
it occurs: on `"12+34"` the code returns `"12+34"` while the claimed
rule yields `"1234"`.  Second, the claim says the scientific branch
returns "a digit string", but on `"-1E3"` — an exact integer value,
where the embedded number model coincides with the IEEE-754 behaviour
of the code — the code returns `"-1000"`, whose leading `'-'` is not a
digit. -/
theorem normalizePhone_claim_counterexample :
    (normalizePhone "12+34" = "12+34" ∧ claimStripPhone "12+34" = "1234" ∧
      normalizePhone "12+34" ≠ claimStripPhone "12+34") ∧
      (normalizePhone "-1E3" = "-1000" ∧ '-' ∈ (normalizePhone "-1E3").data ∧
        ('-').isDigit = false) :=
  ⟨⟨by decide, by decide, by decide⟩, ⟨by decide, by decide, by decide⟩⟩

theorem natDigits_isDigit (m : Nat) : ∀ c ∈ natDigits m, c.isDigit = true := by
  intro c hc
  rcases natDigitsAux_chars _ _ _ c hc with h | h
  · exact h
  · simp at h

/-- **C3 (amended).** If the raw phone string contains `"E"` and parses
as a number whose mathematical value is an integer of magnitude below
`2 ^ 53` — the regime in which the IEEE-754 double the code computes is
exact and JS renders integers in plain decimal notation, which covers
the Excel scientific-notation exports this branch exists for —
`normalizePhone` returns that value's decimal digit string with no
decimal point, prefixed by a minus sign (and hence not a pure digit
string) when the value is negative; the behaviour for larger or
non-integer values follows IEEE-754 double rounding and the exponential
rendering JS applies at magnitudes at or above `10 ^ 21`, and is not
covered.  Otherwise it returns the input with every character except
digits and `+` signs removed (a `+` survives wherever it occurs, not
only in leading position), truncated to 20 characters; the empty input
yields the empty string, and the function always returns a string. -/
theorem normalizePhone_spec :
    (∀ (p : String) (f : JsFloatLit) (n : Int),
        jsContainsChar p 'E' = true → jsParseFloat p = some f →
        f.toRat = (n : ℚ) → n.natAbs < 2 ^ 53 →
        normalizePhone p = jsNumToString n ∧
          '.' ∉ (normalizePhone p).data ∧
          (0 ≤ n → ∀ c ∈ (normalizePhone p).data, c.isDigit = true) ∧
          (n < 0 → (normalizePhone p).data.head? = some '-' ∧
            ∀ c ∈ (normalizePhone p).data.tail, c.isDigit = true)) ∧
      (∀ p : String, (jsContainsChar p 'E' && (jsParseFloat p).isSome) = false →
        p ≠ "" → normalizePhone p = stripNonDigitPlus p) ∧
      normalizePhone "" = "" := by
  refine ⟨?_, ?_, by decide⟩
  · intro p f n hE hparse htor hbound
    have hne : p ≠ "" := by
      intro habs
      subst habs
      simp [jsContainsChar] at hE
    have hround : jsRoundLit f = n := by
      rw [jsRoundLit_eq_floor, htor, floor_int_add_half]
    have heq : normalizePhone p = jsNumToString n := by
      rw [normalizePhone, if_neg hne, hparse]
      simp [hE, hround]
    refine ⟨heq, ?_, ?_, ?_⟩
    · rw [heq]
      exact jsNumToString_no_dot n
    · intro hn
      rw [heq]
      intro c hc
      rw [jsNumToString, if_neg (by omega)] at hc
      exact natDigits_isDigit _ c hc
    · intro hn
      rw [heq]
      constructor
      · rw [jsNumToString, if_pos hn]
        rfl
      · intro c hc
        rw [jsNumToString, if_pos hn] at hc
        exact natDigits_isDigit _ c hc
  · intro p hcond hne
    rw [normalizePhone, if_neg hne]
    rcases hparse : jsParseFloat p with _ | f
    · rfl
    · have hE : jsContainsChar p 'E' = false := by
        rcases Bool.and_eq_false_iff.mp hcond with h | h
        · exact h
        · rw [hparse] at h
          simp at h
      simp [hE]

/-- Witness for C3 (amended) at concrete inputs: `"1.5E1"` denotes the
exact integer 15 and the scientific branch returns `"15"`; `"12+34"`
takes the stripping branch and keeps the interior `+`. -/
theorem normalizePhone_spec_witness :
    normalizePhone "1.5E1" = "15" ∧ normalizePhone "12+34" = "12+34" := by
  constructor
  · have h := normalizePhone_spec.1 "1.5E1" ⟨false, 15, 0⟩ 15 (by decide) (by decide)
      (by norm_num [JsFloatLit.toRat]) (by norm_num)
    rw [h.1]
    decide
  · have h := normalizePhone_spec.2.1 "12+34" (by decide) (by decide)
    rw [h]
    decide


theorem importCsvProcessRowsAux_spec (uid : String)
    (rows : List (List (String × String))) : ∀ idx,
    importCsvProcessRowsAux uid rows idx
      = ((List.enumFrom idx rows).filterMap fun p => (importCsvMapRow uid p.2 p.1).draft,
         (List.enumFrom idx rows).filterMap fun p => (importCsvMapRow uid p.2 p.1).errMsg) := by
  induction rows with
  | nil =>
    intro idx
    simp [importCsvProcessRowsAux, List.enumFrom]
  | cons r rest ih =>
    intro idx
    rcases houtcome : importCsvMapRow uid r idx with c | m
    · simp [importCsvProcessRowsAux, houtcome, ih (idx + 1), List.enumFrom,
        RowOutcome.draft, RowOutcome.errMsg]
    · simp [importCsvProcessRowsAux, houtcome, ih (idx + 1), List.enumFrom,
        RowOutcome.draft, RowOutcome.errMsg]

/-- **C4 counterexample.** The claim fixes the name-failure error
string as `"Missing name"`, but neither implementation emits that
string: at a concrete row with a valid email and no name data,
`ImportCsv.handleFile` emits
`"Row 2: Missing name (provide Full Name or First/Last Name)"` and
`CSVUpload.handleFileUpload` emits
`"Row 2: Missing both first and last name"`, and neither equals the
claimed string (with or without the row prefix). -/
theorem missing_name_error_string_counterexample :
    importCsvMapRow "u" [("email", "a@x")] 0
        = .err "Row 2: Missing name (provide Full Name or First/Last Name)" ∧
      (csvUploadProcess "u" "email,first_name
a@x.com,").2
        = ["Row 2: Missing both first and last name"] ∧
      ("Row 2: Missing name (provide Full Name or First/Last Name)" : String)
          ≠ "Row 2: Missing name" ∧
      ("Row 2: Missing both first and last name" : String) ≠ "Row 2: Missing name" ∧
      ("Row 2: Missing name (provide Full Name or First/Last Name)" : String)
          ≠ "Missing name" ∧
      ("Row 2: Missing both first and last name" : String) ≠ "Missing name" :=
  ⟨by decide, by decide, by decide, by decide, by decide, by decide⟩

/-- **C4 (amended).** Row validation in the import loop excludes
exactly the rows whose resolved email is missing or lacks `@` (error
string "Invalid or missing email") or whose resolved first and last
name are both empty (error string "Missing name (provide Full Name or
First/Last Name)" in the ImportCsv path, "Missing both first and last
name" in the CSVUpload path); each error carries the display row number
`idx + 2` (header = row 1, first data row = row 2); every other data
row yields a draft.  Concretely, the fixture with 3 valid and 2 invalid
rows imports exactly 3 records and reports exactly 2 errors at display
rows 3 and 5, in both import components. -/
theorem importCsv_row_isolation :
    (∀ (uid : String) (rows : List (List (String × String))),
        importCsvProcessRows uid rows
          = (rows.enum.filterMap fun p => (importCsvMapRow uid p.2 p.1).draft,
             rows.enum.filterMap fun p => (importCsvMapRow uid p.2 p.1).errMsg)) ∧
      (∀ (uid : String) (r : List (String × String)) (idx : Nat),
        (importCsvResolvedEmail r = "" ∨ jsContainsChar (importCsvResolvedEmail r) '@' = false →
          importCsvMapRow uid r idx
            = .err ("Row " ++ toString (idx + 2) ++ ": Invalid or missing email")) ∧
        (importCsvResolvedEmail r ≠ "" → jsContainsChar (importCsvResolvedEmail r) '@' = true →
          (importCsvResolvedName r).1 = "" → (importCsvResolvedName r).2 = "" →
          importCsvMapRow uid r idx
            = .err ("Row " ++ toString (idx + 2) ++
                ": Missing name (provide Full Name or First/Last Name)")) ∧
        (importCsvResolvedEmail r ≠ "" → jsContainsChar (importCsvResolvedEmail r) '@' = true →
          ¬ ((importCsvResolvedName r).1 = "" ∧ (importCsvResolvedName r).2 = "") →
          importCsvMapRow uid r idx = .ok (importCsvDraft uid r))) ∧
      ((importCsvProcessRows "rep-1" (parseCsv csvFixture)).1.map (fun c => c.email)
          = ["a@x.com", "c@x.com", "e@x.com"] ∧
        (importCsvProcessRows "rep-1" (parseCsv csvFixture)).1.length = 3 ∧
        (importCsvProcessRows "rep-1" (parseCsv csvFixture)).2
          = ["Row 3: Invalid or missing email",
             "Row 5: Missing name (provide Full Name or First/Last Name)"]) ∧
      ((csvUploadProcess "rep-1" csvFixture).1.length = 3 ∧
        (csvUploadProcess "rep-1" csvFixture).2
          = ["Row 3: Invalid or missing email", "Row 5: Missing both first and last name"]) := by
  refine ⟨?_, ?_, by decide, by decide⟩
  · intro uid rows
    rw [importCsvProcessRows, importCsvProcessRowsAux_spec uid rows 0]
    rfl
  · intro uid r idx
    refine ⟨?_, ?_, ?_⟩
    · intro h
      rw [importCsvMapRow, if_pos h]
    · intro h1 h2 h3 h4
      have hcond : ¬ (importCsvResolvedEmail r = "" ∨
          jsContainsChar (importCsvResolvedEmail r) '@' = false) := by
        simp [h1, h2]
      rw [importCsvMapRow, if_neg hcond, if_pos ⟨h3, h4⟩]
    · intro h1 h2 h3
      have hcond : ¬ (importCsvResolvedEmail r = "" ∨
          jsContainsChar (importCsvResolvedEmail r) '@' = false) := by
        simp [h1, h2]
      rw [importCsvMapRow, if_neg hcond, if_neg h3]

/-- Witness for C4 at concrete rows: a row with an `@`-less email is
rejected with the email error at display row 2, a row with a valid email
but no name data is rejected with the name error at display row 3, and a
valid row is mapped to its draft. -/
theorem importCsv_row_isolation_witness :
    importCsvMapRow "u" [("email", "bad")] 0 = .err "Row 2: Invalid or missing email" ∧
      importCsvMapRow "u" [("email", "a@x")] 1
        = .err "Row 3: Missing name (provide Full Name or First/Last Name)" ∧
      importCsvMapRow "u" [("email", "a@x"), ("first_name", "Al")] 2
        = .ok (importCsvDraft "u" [("email", "a@x"), ("first_name", "Al")]) := by
  refine ⟨?_, ?_, ?_⟩
  · have h := (importCsv_row_isolation.2.1 "u" [("email", "bad")] 0).1 (by decide)
    rw [h]
    rfl
  · have h := (importCsv_row_isolation.2.1 "u" [("email", "a@x")] 1).2.1
      (by decide) (by decide) (by decide) (by decide)
    rw [h]
    rfl
  · have h := (importCsv_row_isolation.2.1 "u" [("email", "a@x"), ("first_name", "Al")] 2).2.2
      (by decide) (by decide) (by decide)
    rw [h]


/-- **C5 counterexample.** On an import through `ImportCsv.handleFile`
whose batch is empty with six collected errors, the failure message is
only the first five errors: it carries no count of the remaining errors
(it coincides with the message for exactly five errors, and the count
text "more" never appears), contradicting the claim that the message
combines the first five errors plus a count of the remainder. -/
theorem importCsv_emptyBatch_counterexample :
    (importCsvProcessRows "u" (parseCsv badCsvFixture)).2.length = 6 ∧
      (importCsvRun "u" badCsvFixture []).1
        = .failure ("No valid rows found. Errors:\n" ++
            "Row 2: Invalid or missing email\nRow 3: Invalid or missing email\n" ++
            "Row 4: Invalid or missing email\nRow 5: Invalid or missing email\n" ++
            "Row 6: Invalid or missing email") ∧
      importCsvEmptyBatchMsg ["a", "b", "c", "d", "e", "f"]
        = importCsvEmptyBatchMsg ["a", "b", "c", "d", "e"] ∧
      jsIncludes (importCsvEmptyBatchMsg ["a", "b", "c", "d", "e", "f"]) "more" = false :=
  ⟨by decide, by decide, by decide, by decide⟩

/-- **C5 (amended).** An import whose successful batch is empty fails
without any persistence write, with a failure message built from the
first five collected errors — the `CSVUpload` path additionally appends
a count of the remaining errors when more than five exist, while the
`ImportCsv` path shows only the first five with no count — or a generic
no-data-rows message when zero errors were collected. -/
theorem emptyBatch_spec :
    (∀ (uid text : String) (table : List Customer),
        (importCsvProcessRows uid (parseCsv text)).1 = [] →
        importCsvRun uid text table
          = (.failure (importCsvEmptyBatchMsg (importCsvProcessRows uid (parseCsv text)).2),
             table)) ∧
      (∀ (uid text : String) (table : List ClientData),
        (csvUploadProcess uid text).1 = [] →
        csvUploadRun uid text table
          = (.failure (csvUploadEmptyBatchMsg (csvUploadProcess uid text).2), table)) ∧
      (∀ errors : List String, 5 < errors.length →
        csvUploadEmptyBatchMsg errors
          = "No valid rows found. Errors:\n" ++ joinNewline (errors.take 5) ++
              ("\n...and " ++ toString (errors.length - 5) ++ " more")) ∧
      (∀ errors : List String, 0 < errors.length →
        importCsvEmptyBatchMsg errors
          = "No valid rows found. Errors:\n" ++ joinNewline (errors.take 5)) ∧
      csvUploadEmptyBatchMsg [] = "No data rows found in CSV file" ∧
      importCsvEmptyBatchMsg [] = "CSV did not contain any valid rows." := by
  refine ⟨?_, ?_, ?_, ?_, by decide, by decide⟩
  · intro uid text table h
    rw [importCsvRun]
    simp [h]
  · intro uid text table h
    rw [csvUploadRun]
    simp [h]
  · intro errors h
    rw [csvUploadEmptyBatchMsg, if_pos (by omega), if_pos h]
  · intro errors h
    rw [importCsvEmptyBatchMsg, if_pos h]

/-- Witness for C5 (amended) at concrete inputs: a header-only file
fails with the generic message and leaves the table untouched, and a
six-error list yields the five-error prefix plus the "1 more" count in
the `CSVUpload` message. -/
theorem emptyBatch_spec_witness :
    importCsvRun "u" "email" [] = (.failure "CSV did not contain any valid rows.", []) ∧
      csvUploadEmptyBatchMsg ["a", "b", "c", "d", "e", "f"]
        = "No valid rows found. Errors:\na\nb\nc\nd\ne\n...and 1 more" := by
  constructor
  · have h := emptyBatch_spec.1 "u" "email" [] (by decide)
    rw [h]
    decide
  · have h := emptyBatch_spec.2.2.1 ["a", "b", "c", "d", "e", "f"] (by decide)
    rw [h]
    decide

/-- **C6 counterexample.** One batch insert performed by a caller with
identity `"caller-uid"` persists two records carrying the two different
tenants written in the drafts (`tenant-a` and `tenant-b`): the persisted
tenant is taken from the draft, so it cannot always equal the single
calling representative's tenant.  The representative identity, by
contrast, is overwritten with the caller's. -/
theorem persist_tenant_counterexample :
    (customersToPersist "caller-uid" [draftA, draftB]).map (fun c => c.client_id)
        = [some "tenant-a", some "tenant-b"] ∧
      (customersToPersist "caller-uid" [draftA, draftB]).map (fun c => c.sales_rep_user_id)
        = ["caller-uid", "caller-uid"] ∧
      (upsertCustomersTable "caller-uid" [] [draftA]).map (fun c => c.client_id)
        = [some "tenant-a"] ∧
      some "tenant-a" ≠ some "tenant-b" :=
  ⟨by decide, by decide, by decide, by decide⟩

theorem mem_upsertApply (t : List Customer) (row r : Customer)
    (h : r ∈ upsertApply t row) : r ∈ t ∨ r = row := by
  rw [upsertApply] at h
  by_cases hc : t.any (fun x => sameConflictKey x row) = true
  · rw [if_pos hc] at h
    rcases List.mem_map.mp h with ⟨a, ha, heq⟩
    by_cases hk : sameConflictKey a row = true
    · rw [if_pos hk] at heq
      exact Or.inr heq.symm
    · rw [if_neg hk] at heq
      exact Or.inl (heq ▸ ha)
  · rw [if_neg hc] at h
    rcases List.mem_append.mp h with h' | h'
    · exact Or.inl h'
    · exact Or.inr (List.mem_singleton.mp h')

theorem mem_foldl_upsertApply (rows : List Customer) :
    ∀ (t : List Customer) (r : Customer),
      r ∈ rows.foldl upsertApply t → r ∈ t ∨ r ∈ rows := by
  induction rows with
  | nil =>
    intro t r h
    exact Or.inl h
  | cons x xs ih =>
    intro t r h
    rcases ih (upsertApply t x) r h with h' | h'
    · rcases mem_upsertApply t x r h' with h'' | h''
      · exact Or.inl h''
      · exact Or.inr (h'' ▸ List.mem_cons_self x xs)
    · exact Or.inr (List.mem_cons_of_mem x h')

/-- **C6 (amended).** Every record sent to the persistence layer by
`insertCustomers`/`upsertCustomers` has its representative identity
(`sales_rep_user_id`) overwritten with the authenticated caller's id,
regardless of the value carried in the draft; the tenant (`client_id`),
however, is carried over from the draft unchanged — it is not forced to
the caller's tenant. -/
theorem persist_ownership_spec :
    (∀ (uid : String) (customers : List Customer),
        (customersToPersist uid customers).map (fun c => c.sales_rep_user_id)
            = customers.map (fun _ => uid) ∧
          (customersToPersist uid customers).map (fun c => c.client_id)
            = customers.map (fun c => c.client_id)) ∧
      (∀ (uid : String) (customers : List Customer) (r : Customer),
        r ∈ customersToPersist uid customers → r.sales_rep_user_id = uid) ∧
      (∀ (uid : String) (table customers : List Customer) (r : Customer),
        r ∈ upsertCustomersTable uid table customers →
          r ∈ table ∨ r ∈ customersToPersist uid customers) ∧
      (∀ (uid : String) (table customers : List Customer) (r : Customer),
        r ∈ insertCustomersTable uid table customers →
          r ∈ table ∨ r ∈ customersToPersist uid customers) := by
  refine ⟨?_, ?_, ?_, ?_⟩
  · intro uid customers
    constructor
    · rw [customersToPersist, List.map_map]
      rfl
    · rw [customersToPersist, List.map_map]
      rfl
  · intro uid customers r h
    rcases List.mem_map.mp h with ⟨c, _, heq⟩
    rw [← heq]
  · intro uid table customers r h
    exact mem_foldl_upsertApply (customersToPersist uid customers) table r h
  · intro uid table customers r h
    exact List.mem_append.mp h

/-- Witness for C6 (amended): the single row persisted by an upsert of
`draftA` as `"caller-uid"` carries the caller's identity. -/
theorem persist_ownership_spec_witness :
    ({ draftA with sales_rep_user_id := "caller-uid" } : Customer).sales_rep_user_id
      = "caller-uid" :=
  persist_ownership_spec.2.1 "caller-uid" [draftA]
    { draftA with sales_rep_user_id := "caller-uid" } (by decide)

theorem any_key_upsertApply_preserved (t : List Customer) (row r : Customer)
    (h : t.any (fun x => sameConflictKey x r) = true) :
    (upsertApply t row).any (fun x => sameConflictKey x r) = true := by
  rcases List.any_eq_true.mp h with ⟨x, hx, hkey⟩
  rw [upsertApply]
  by_cases hc : t.any (fun x => sameConflictKey x row) = true
  · rw [if_pos hc]
    apply List.any_eq_true.mpr
    by_cases hk : sameConflictKey x row = true
    · refine ⟨row, List.mem_map.mpr ⟨x, hx, by rw [if_pos hk]⟩, ?_⟩
      have h1 := hkey
      have h2 := hk
      simp only [sameConflictKey, Bool.and_eq_true, beq_iff_eq] at h1 h2 ⊢
      exact ⟨by rw [← h2.1, h1.1], by rw [← h2.2, h1.2]⟩
    · exact ⟨x, List.mem_map.mpr ⟨x, hx, by rw [if_neg hk]⟩, hkey⟩
  · rw [if_neg hc]
    exact List.any_eq_true.mpr ⟨x, List.mem_append.mpr (Or.inl hx), hkey⟩

theorem any_key_upsertApply_self (t : List Customer) (row : Customer) :
    (upsertApply t row).any (fun x => sameConflictKey x row) = true := by
  have hrefl : sameConflictKey row row = true := by
    rw [sameConflictKey]
    simp
  rw [upsertApply]
  by_cases hc : t.any (fun x => sameConflictKey x row) = true
  · rw [if_pos hc]
    rcases List.any_eq_true.mp hc with ⟨x, hx, hkey⟩
    exact List.any_eq_true.mpr ⟨row, List.mem_map.mpr ⟨x, hx, by rw [if_pos hkey]⟩, hrefl⟩
  · rw [if_neg hc]
    exact List.any_eq_true.mpr ⟨row, List.mem_append.mpr (Or.inr (List.mem_singleton.mpr rfl)), hrefl⟩

theorem any_key_foldl_preserved (rows : List Customer) :
    ∀ (t : List Customer) (r : Customer),
      t.any (fun x => sameConflictKey x r) = true →
      (rows.foldl upsertApply t).any (fun x => sameConflictKey x r) = true := by
  induction rows with
  | nil =>
    intro t r h
    exact h
  | cons x xs ih =>
    intro t r h
    exact ih (upsertApply t x) r (any_key_upsertApply_preserved t x r h)

theorem any_key_after_foldl (rows : List Customer) :
    ∀ (t : List Customer) (r : Customer), r ∈ rows →
      (rows.foldl upsertApply t).any (fun x => sameConflictKey x r) = true := by
  induction rows with
  | nil =>
    intro t r h
    exact absurd h (List.not_mem_nil r)
  | cons x xs ih =>
    intro t r h
    rcases List.mem_cons.mp h with rfl | h'
    · exact any_key_foldl_preserved xs (upsertApply t r) r (any_key_upsertApply_self t r)
    · exact ih (upsertApply t x) r h'

theorem length_upsertApply_of_key (t : List Customer) (row : Customer)
    (h : t.any (fun x => sameConflictKey x row) = true) :
    (upsertApply t row).length = t.length := by
  rw [upsertApply, if_pos h, List.length_map]

theorem length_foldl_of_all_keys (rows : List Customer) :
    ∀ t : List Customer,
      (∀ r ∈ rows, t.any (fun x => sameConflictKey x r) = true) →
      (rows.foldl upsertApply t).length = t.length := by
  induction rows with
  | nil =>
    intro t _
    rfl
  | cons x xs ih =>
    intro t h
    have hx := h x (List.mem_cons_self x xs)
    have hrest : ∀ r ∈ xs, (upsertApply t x).any (fun y => sameConflictKey y r) = true :=
      fun r hr => any_key_upsertApply_preserved t x r (h r (List.mem_cons_of_mem x hr))
    rw [List.foldl_cons, ih (upsertApply t x) hrest, length_upsertApply_of_key t x hx]

/-- **C7.** Upserting the same batch twice starting from an empty
customers table leaves exactly as many rows as one upsert does: after
the first run every batch row's `(sales_rep_user_id, email)` conflict
key is present in the table, so the second run only updates in place and
creates no row.  Concretely, running the same CSV import twice through
`ImportCsv.handleFile` in upsert mode gives the same table size both
times. -/
theorem upsert_idempotent_count :
    (∀ (uid : String) (batch : List Customer),
        (upsertCustomersTable uid (upsertCustomersTable uid [] batch) batch).length
          = (upsertCustomersTable uid [] batch).length) ∧
      ((importCsvRun "rep-1" csvFixture
          (importCsvRun "rep-1" csvFixture []).2).2.length
        = (importCsvRun "rep-1" csvFixture []).2.length ∧
       (importCsvRun "rep-1" csvFixture []).2.length = 3) := by
  constructor
  · intro uid batch
    rw [upsertCustomersTable, upsertCustomersTable]
    apply length_foldl_of_all_keys
    intro r hr
    exact any_key_after_foldl (customersToPersist uid batch) [] r hr
  · exact ⟨by decide, by decide⟩


theorem charToLower_idem (c : Char) : Char.toLower (Char.toLower c) = Char.toLower c := by
  unfold Char.toLower
  simp only
  by_cases h : c.toNat ≥ 65 ∧ c.toNat ≤ 90
  · rw [if_pos h]
    have hv : (c.toNat + 32).isValidChar := by
      left
      omega
    have ht : (Char.ofNat (c.toNat + 32)).toNat = c.toNat + 32 := by
      simp [Char.ofNat, hv]
      rfl
    rw [if_neg]
    rw [ht]
    omega
  · rw [if_neg h, if_neg h]

theorem jsToLower_idem (s : String) : jsToLower (jsToLower s) = jsToLower s := by
  rw [jsToLower, jsToLower]
  congr 1
  show (s.data.map Char.toLower).map Char.toLower = s.data.map Char.toLower
  induction s.data with
  | nil => rfl
  | cons c cs ih => simp [ih, charToLower_idem]

/-- **C8.** A POST to the onboarding webhook whose `sales_rep_email`
does not resolve case-insensitively to any stored representative (with
all required fields present and the service key configured) returns HTTP
404 with the not-found message and leaves the persistence state
untouched: no customer record is created and no representative is
implicitly created. -/
theorem webhook_unknown_rep_404 :
    ∀ (hasKey : Bool) (st : WebhookState) (payload : OnboardPayload),
      (∀ rep ∈ st.salesReps, jsToLower rep.email ≠ jsToLower payload.sales_rep_email) →
      payload.first_name ≠ "" → payload.last_name ≠ "" → payload.email ≠ "" →
      payload.phone_no ≠ "" → payload.sales_rep_email ≠ "" → hasKey = true →
      webhookCustomerOnboard hasKey st "POST" payload
        = ({ status := 404, success := false,
             message := "Sales representative not found" }, st) := by
  intro hasKey st payload hnone h1 h2 h3 h4 h5 hkey
  subst hkey
  have hfilter : st.salesReps.filter
      (fun rep => rep.email == jsToLower payload.sales_rep_email) = [] := by
    rw [List.filter_eq_nil_iff]
    intro rep hrep habs
    have heq : rep.email = jsToLower payload.sales_rep_email := eq_of_beq habs
    have hlow := congrArg jsToLower heq
    rw [jsToLower_idem] at hlow
    exact hnone rep hrep hlow
  have hfind : findExactlyOne
      (fun rep => rep.email == jsToLower payload.sales_rep_email) st.salesReps = none := by
    rw [findExactlyOne, hfilter]
  rw [webhookCustomerOnboard, if_neg (by decide), if_neg (by decide),
    if_neg (by simp [h1, h2, h3, h4, h5]), if_neg (by decide), hfind]

/-- Witness for C8: one stored representative `rep@x.com`, a payload
addressed to `Other@X.com` — the handler answers 404 and the state is
unchanged. -/
theorem webhook_unknown_rep_404_witness :
    webhookCustomerOnboard true webhookStateFixture "POST" unknownRepPayload
      = ({ status := 404, success := false,
           message := "Sales representative not found" }, webhookStateFixture) :=
  webhook_unknown_rep_404 true webhookStateFixture unknownRepPayload
    (by decide) (by decide) (by decide) (by decide) (by decide) (by decide) rfl

theorem findExactlyOne_eq_some {p : α → Bool} {l : List α} {x : α}
    (h : findExactlyOne p l = some x) : x ∈ l ∧ p x = true := by
  rw [findExactlyOne] at h
  rcases hf : l.filter p with _ | ⟨y, ys⟩
  · rw [hf] at h
    exact absurd h (by simp)
  · rcases ys with _ | ⟨z, zs⟩
    · rw [hf] at h
      have hx : y = x := by
        simpa using h
      subst hx
      have hm : y ∈ l.filter p := by
        rw [hf]
        exact List.mem_singleton.mpr rfl
      exact ⟨List.mem_of_mem_filter hm, List.of_mem_filter hm⟩
    · rw [hf] at h
      exact absurd h (by simp)

/-- **C9.** Every invite-representative invocation that reaches identity
resolution (authenticated client-admin caller, fields present, tenant
resolved, identity found/invited/created) appends exactly one audit log
entry with action `"invite_sales_rep"`, recording the acting
administrator as `user_id`, the resolved representative identity as
`resource_id`, and the submitted fields as `new_data` — the same on the
insert path and on the update path of the `sales_reps` write; the
response is `{success: true, createdUser: created}` and the resulting
`sales_reps` table holds a record for `(tenant, email)` with status
`"active"`; when no identity existed and the invite channel works, the
`created` flag is `true`. -/
theorem inviteSalesRep_audit_activation :
    ∀ (hasKey : Bool) (idp : IdpBehavior) (st : AdminState) (user : AuthUser)
      (payload : InvitePayload) (profile : Profile) (clientId : String)
      (salesUser : AuthUser) (created : Bool),
      payload.first_name ≠ "" → payload.last_name ≠ "" → payload.email ≠ "" →
      hasKey = true →
      st.profiles.find? (fun p => p.user_id == user.id) = some profile →
      profile.role = "client_admin" →
      profile.client_id.orElse (fun _ => idp.ensuredClientId) = some clientId →
      inviteResolveUser st.users idp payload.email = some (salesUser, created) →
      ((inviteSalesRep hasKey idp st "POST" (some user) payload).2.auditLogs
          = st.auditLogs ++
            [{ tenant_id := clientId, user_id := some user.id,
               action := "invite_sales_rep", resource_type := "sales_rep",
               resource_id := some salesUser.id, new_data_email := payload.email,
               new_data_first_name := payload.first_name,
               new_data_last_name := payload.last_name,
               new_data_phone_no := payload.phone_no }] ∧
        (∃ r ∈ (inviteSalesRep hasKey idp st "POST" (some user) payload).2.salesReps,
            r.client_id = clientId ∧ r.email = payload.email ∧ r.status = "active") ∧
        (inviteSalesRep hasKey idp st "POST" (some user) payload).1
          = { status := 200, success := true, createdUser := some created,
              user_id := some salesUser.id } ∧
        (st.users.find? (fun u => jsToLower u.email == jsToLower payload.email) = none →
          idp.inviteWorks = true → created = true)) := by
  intro hasKey idp st user payload profile clientId salesUser created
    h1 h2 h3 hkey hprof hrole hclient hres
  subst hkey
  have hrole' : ¬ (profile.role ≠ "client_admin") := by simp [hrole]
  have hred : inviteSalesRep true idp st "POST" (some user) payload
      = (let displayName := payload.first_name ++ " " ++ payload.last_name
         let st1 := { st with
           profiles := profilesUpsert st.profiles salesUser.id "sales_rep" displayName clientId
           userRoles := userRolesUpsert st.userRoles salesUser.id "sales_rep" clientId }
         let audit : AuditLog :=
           { tenant_id := clientId, user_id := some user.id, action := "invite_sales_rep",
             resource_type := "sales_rep", resource_id := some salesUser.id,
             new_data_email := payload.email, new_data_first_name := payload.first_name,
             new_data_last_name := payload.last_name, new_data_phone_no := payload.phone_no }
         let st2 := { st1 with auditLogs := st1.auditLogs ++ [audit] }
         match findExactlyOne
             (fun r => r.client_id == clientId && r.email == payload.email)
             st2.salesReps with
         | some existing =>
           ({ status := 200, success := true, createdUser := some created,
              user_id := some salesUser.id },
            { st2 with salesReps := st2.salesReps.map (fun r =>
               if r.id == existing.id then
                 { r with
                   user_id := salesUser.id
                   first_name := payload.first_name
                   last_name := payload.last_name
                   phone_no := payload.phone_no
                   status := "active" }
               else r) })
         | none =>
           ({ status := 200, success := true, createdUser := some created,
              user_id := some salesUser.id },
            { st2 with salesReps := st2.salesReps ++
               [{ id := idp.freshRepId, user_id := salesUser.id, client_id := clientId,
                  first_name := payload.first_name, last_name := payload.last_name,
                  email := payload.email, phone_no := payload.phone_no,
                  status := "active" }] })) := by
    rw [inviteSalesRep, if_neg (by decide), if_neg (by decide),
      if_neg (by simp [h1, h2, h3]), if_neg (by decide)]
    simp only [hprof]
    rw [if_neg hrole']
    simp only [hclient, hres]
  have hcreatedlast : st.users.find? (fun u => jsToLower u.email == jsToLower payload.email)
      = none → idp.inviteWorks = true → created = true := by
    intro hfindnone hinv
    rw [inviteResolveUser, hfindnone, if_pos hinv] at hres
    have := (Option.some.injEq _ _).mp hres
    exact (congrArg Prod.snd this).symm
  rcases hex : findExactlyOne
      (fun r => r.client_id == clientId && r.email == payload.email) st.salesReps
    with _ | existing
  · rw [hred]
    simp only [hex]
    refine ⟨trivial, ?_, trivial, hcreatedlast⟩
    refine ⟨{ id := idp.freshRepId, user_id := salesUser.id, client_id := clientId,
              first_name := payload.first_name, last_name := payload.last_name,
              email := payload.email, phone_no := payload.phone_no,
              status := "active" }, ?_, rfl, rfl, rfl⟩
    simp
  · have hmem := findExactlyOne_eq_some hex
    have hkeys := hmem.2
    simp only [Bool.and_eq_true, beq_iff_eq] at hkeys
    rw [hred]
    simp only [hex]
    refine ⟨trivial, ?_, trivial, hcreatedlast⟩
    refine ⟨{ existing with
              user_id := salesUser.id
              first_name := payload.first_name
              last_name := payload.last_name
              phone_no := payload.phone_no
              status := "active" }, ?_, hkeys.1, hkeys.2, rfl⟩
    apply List.mem_map.mpr
    exact ⟨existing, hmem.1, by rw [if_pos (by simp)]⟩

/-- Witness for C9 at the concrete scenario: an administrator invites
`jane@x.com`, no identity exists, the invite channel works — the
response is success with `createdUser = true`, exactly one audit entry
with action `"invite_sales_rep"` is written, and the `sales_reps` table
holds one active record for `(t1, jane@x.com)`. -/
theorem inviteSalesRep_audit_activation_witness :
    (inviteSalesRep true idpFixture adminStateFixture "POST" (some adminUserFixture)
        invitePayloadFixture).1
      = { status := 200, success := true, createdUser := some true,
          user_id := some "newu" } ∧
    (inviteSalesRep true idpFixture adminStateFixture "POST" (some adminUserFixture)
        invitePayloadFixture).2.auditLogs
      = [{ tenant_id := "t1", user_id := some "admin1", action := "invite_sales_rep",
           resource_type := "sales_rep", resource_id := some "newu",
           new_data_email := "jane@x.com", new_data_first_name := "Jane",
           new_data_last_name := "Doe", new_data_phone_no := some "123" }] ∧
    (inviteSalesRep true idpFixture adminStateFixture "POST" (some adminUserFixture)
        invitePayloadFixture).2.salesReps
      = [{ id := "rep-row-1", user_id := "newu", client_id := "t1",
           first_name := "Jane", last_name := "Doe", email := "jane@x.com",
           phone_no := some "123", status := "active" }] := by
  have h := inviteSalesRep_audit_activation true idpFixture adminStateFixture
    adminUserFixture invitePayloadFixture
    { user_id := "admin1", role := "client_admin",
      display_name := some "Admin", client_id := some "t1" }
    "t1" { id := "newu", email := "jane@x.com" } true
    (by decide) (by decide) (by decide) rfl (by decide) rfl (by decide) (by decide)
  exact ⟨by rw [h.2.2.1], by decide, by decide⟩

end DealBoost
